import Mathlib

/-!
A shallow embedding of the apito-mcp Schema Definition Engine.

The definitions below translate, function by function, the TypeScript
sources `src/schema-parser.ts`, `src/field-resolver.ts` and the tool
layer of `src/index.ts`.  JavaScript strings are modelled as Lean
`String`; the JS helpers `trim`, `toLowerCase`, `includes`,
`startsWith`, `endsWith` and the two anchored regular expressions of
the parser are modelled explicitly over the character list of the
string.  `toLowerCase` is modelled as ASCII lowering (all keywords and
reserved words in the source are ASCII).  JS truthiness of optional
strings (`a || b`, `!a`) is modelled by `jsOrStr` / `jsTruthyOpt`:
`undefined` and the empty string are falsy.  Thrown `Error`s are
modelled as `Except` values tagged by the throw site.
-/

namespace Js

def isSpaceChar (c : Char) : Bool :=
  c = ' ' || c = '\t' || c = '\n' || c = '\r' || c = '\x0b' || c = '\x0c'

def isWordChar (c : Char) : Bool :=
  (('a' ≤ c) && (c ≤ 'z')) || (('A' ≤ c) && (c ≤ 'Z')) ||
  (('0' ≤ c) && (c ≤ '9')) || c = '_'

def isDigitChar (c : Char) : Bool :=
  ('0' ≤ c) && (c ≤ '9')

/-- JS `/^\d/.test(name)`. -/
def startsWithDigit (s : String) : Bool :=
  match s.data with
  | [] => false
  | c :: _ => isDigitChar c

def lowerChar (c : Char) : Char :=
  if ('A' ≤ c) && (c ≤ 'Z') then Char.ofNat (c.toNat + 32) else c

def upperChar (c : Char) : Char :=
  if ('a' ≤ c) && (c ≤ 'z') then Char.ofNat (c.toNat - 32) else c

def toLowerStr (s : String) : String :=
  ⟨s.data.map lowerChar⟩

def trimStr (s : String) : String :=
  ⟨((s.data.dropWhile isSpaceChar).reverse.dropWhile isSpaceChar).reverse⟩

/-- Does the pattern list stand at the head of the other list? -/
def headMatches : List Char → List Char → Bool
  | [], _ => true
  | _ :: _, [] => false
  | p :: ps, c :: cs => p == c && headMatches ps cs

/-- JS `haystack.includes(needle)` on character lists. -/
def containsSub (needle : List Char) : List Char → Bool
  | [] => needle.isEmpty
  | c :: t => headMatches needle (c :: t) || containsSub needle t

def includesStr (s sub : String) : Bool :=
  containsSub sub.data s.data

def startsWithStr (s p : String) : Bool :=
  headMatches p.data s.data

def endsWithStr (s p : String) : Bool :=
  headMatches p.data.reverse s.data.reverse

/-- JS `a || dflt` for an optional string: `undefined` and `""` are falsy. -/
def jsOrStr (a : Option String) (dflt : String) : String :=
  match a with
  | none => dflt
  | some s => if s = "" then dflt else s

/-- JS truthiness of an optional string. -/
def jsTruthyOpt (a : Option String) : Bool :=
  match a with
  | none => false
  | some s => !(s == "")

/-- Whitespace-separated words of a character list: models
`str.trim().split(/\s+/).map(t => t.trim()).filter(t => t.length > 0)`. -/
def splitWordsAux : List Char → List Char → List String
  | [], acc => if acc.isEmpty then [] else [⟨acc.reverse⟩]
  | c :: t, acc =>
    if isSpaceChar c then
      if acc.isEmpty then splitWordsAux t [] else ⟨acc.reverse⟩ :: splitWordsAux t []
    else
      splitWordsAux t (c :: acc)

def splitWords (l : List Char) : List String :=
  splitWordsAux l []

/-- Models the anchored regex `^(\w+)\s*<open>([^<close>]+)<close>$` used by
`parseArrayField` (with brackets) and `parseObjectField` (with braces):
returns the captured name and inner text when the whole string matches. -/
def matchContainer (opening closing : Char) (s : String) : Option (String × String) :=
  let l := s.data
  let nm := l.takeWhile isWordChar
  let rest := (l.dropWhile isWordChar).dropWhile isSpaceChar
  if nm.isEmpty then none
  else
    match rest with
    | [] => none
    | c :: t =>
      if c = opening then
        let content := t.takeWhile (fun x => !(x == closing))
        let tail := t.dropWhile (fun x => !(x == closing))
        match tail with
        | [] => none
        | _ :: after =>
          if content.isEmpty then none
          else if after.isEmpty then some (⟨nm⟩, ⟨content⟩) else none
      else none

end Js

open Js

/-- Error taxonomy: one constructor per throw / error-return site of the
TypeScript source (spec §7 names). -/
inductive ApitoErr where
  | malformedDefinition (msg : String)
  | invalidModelName (msg : String)
  | missingFieldSubType (msg : String)
  | missingRequiredValidation (msg : String)
  | unknownTool (name : String)
deriving DecidableEq, Repr

/-- `ParsedField` of `src/types.ts`: a node of the field tree. Optional
TS properties are `Option`s. -/
inductive ParsedField where
  | mk (name : String) (field_type : String) (input_type : String)
       (nested_fields : Option (List ParsedField))
       (parent_field : Option String) (serial : Option Nat)
       (is_object : Option Bool) (is_array : Option Bool)

def ParsedField.name : ParsedField → String
  | .mk n _ _ _ _ _ _ _ => n

def ParsedField.field_type : ParsedField → String
  | .mk _ ft _ _ _ _ _ _ => ft

def ParsedField.input_type : ParsedField → String
  | .mk _ _ it _ _ _ _ _ => it

def ParsedField.nested_fields : ParsedField → Option (List ParsedField)
  | .mk _ _ _ nf _ _ _ _ => nf

def ParsedField.parent_field : ParsedField → Option String
  | .mk _ _ _ _ pf _ _ _ => pf

def ParsedField.serial : ParsedField → Option Nat
  | .mk _ _ _ _ _ sr _ _ => sr

def ParsedField.is_object : ParsedField → Option Bool
  | .mk _ _ _ _ _ _ io _ => io

def ParsedField.is_array : ParsedField → Option Bool
  | .mk _ _ _ _ _ _ _ ia => ia

namespace SchemaParser

/-- `SchemaParser.isArray`: the definition contains both a bracket pair
character. -/
def isArray (fieldDef : String) : Bool :=
  includesStr fieldDef "[" && includesStr fieldDef "]"

/-- `SchemaParser.isObject`. -/
def isObject (fieldDef : String) : Bool :=
  includesStr fieldDef "\x7b" && includesStr fieldDef "\x7d"

/-- `SchemaParser.mightBeArray`: collection-keyword heuristic. -/
def mightBeArray (fieldDef : String) : Bool :=
  let trimmed := toLowerStr (trimStr fieldDef)
  ["list", "array", "items", "collection", "multiple"].any
    (fun indicator => includesStr trimmed indicator)

/-- `SchemaParser.parseArrayField`. -/
def parseArrayField (fieldDef : String) (parentField : Option String) :
    Except ApitoErr ParsedField :=
  match matchContainer '[' ']' fieldDef with
  | none => .error (.malformedDefinition ("Invalid array field format: " ++ fieldDef))
  | some (fieldName, nestedFieldsStr) =>
    let nestedFieldNames := splitWords nestedFieldsStr.data
    let nestedFields := nestedFieldNames.enum.map (fun p =>
      ParsedField.mk p.2 "text" "string" none (some fieldName) (some (p.1 + 1)) none none)
    .ok (ParsedField.mk fieldName "repeated" "repeated" (some nestedFields)
      parentField none none (some true))

/-- `SchemaParser.parseObjectField`. -/
def parseObjectField (fieldDef : String) (parentField : Option String) :
    Except ApitoErr ParsedField :=
  match matchContainer '\x7b' '\x7d' fieldDef with
  | none => .error (.malformedDefinition ("Invalid object field format: " ++ fieldDef))
  | some (fieldName, nestedFieldsStr) =>
    let nestedFieldNames := splitWords nestedFieldsStr.data
    let nestedFields := nestedFieldNames.enum.map (fun p =>
      ParsedField.mk p.2 "text" "string" none (some fieldName) (some (p.1 + 1)) none none)
    .ok (ParsedField.mk fieldName "object" "object" (some nestedFields)
      parentField none (some true) none)

/-- `SchemaParser.parseField`. -/
def parseField (fieldDef : String) (parentField : Option String) :
    Except ApitoErr ParsedField :=
  let trimmed := trimStr fieldDef
  if includesStr trimmed "[" && includesStr trimmed "]" then
    parseArrayField trimmed parentField
  else if includesStr trimmed "\x7b" && includesStr trimmed "\x7d" then
    parseObjectField trimmed parentField
  else
    .ok (ParsedField.mk trimmed "text" "string" none parentField none none none)

end SchemaParser

/-- `FieldTypeInfo` of `src/types.ts`. -/
structure FieldTypeInfo where
  field_type : String
  input_type : String
  is_array : Option Bool := none
  is_object : Option Bool := none
deriving DecidableEq, Repr

namespace FieldResolver

def isDateField (name : String) : Bool :=
  ["date", "time", "created_at", "updated_at", "timestamp", "when"].any
    (fun keyword => includesStr name keyword)

def isNumberField (name : String) : Bool :=
  ["count", "number", "num", "quantity", "qty", "amount", "price",
   "cost", "total", "sum", "age", "score", "rating", "rank",
   "index", "order", "serial", "id", "duration", "frequency",
   "strength", "unit"].any (fun keyword => includesStr name keyword)

def isBooleanField (name : String) : Bool :=
  ["is_", "has_", "can_", "should_", "must_", "enable", "disable",
   "active", "inactive", "enabled", "disabled", "visible", "hidden",
   "required", "optional", "verified", "confirmed"].any
    (fun keyword => startsWithStr name keyword || includesStr name keyword)

def isMultilineField (name : String) : Bool :=
  ["description", "content", "body", "text", "message", "note",
   "comment", "details", "summary", "abstract", "instructions",
   "advice", "findings", "recommendations", "notes"].any
    (fun keyword => includesStr name keyword)

def isMediaField (name : String) : Bool :=
  ["image", "photo", "picture", "logo", "avatar", "icon",
   "file", "document", "attachment", "media", "video", "audio"].any
    (fun keyword => includesStr name keyword)

def isUrlField (name : String) : Bool :=
  ["url", "link", "href", "website", "web", "uri"].any
    (fun keyword => includesStr name keyword)

/-- `FieldResolver.resolveFieldType`. -/
def resolveFieldType (fieldDef : String) (fieldName : Option String) : FieldTypeInfo :=
  let name := jsOrStr fieldName (toLowerStr (trimStr fieldDef))
  let defn := trimStr fieldDef
  if SchemaParser.isArray defn then
    { field_type := "repeated", input_type := "repeated", is_array := some true }
  else if SchemaParser.isObject defn then
    { field_type := "object", input_type := "object", is_object := some true }
  else if endsWithStr defn "[]" || SchemaParser.mightBeArray defn then
    { field_type := "repeated", input_type := "repeated", is_array := some true }
  else if isDateField name then
    { field_type := "date", input_type := "string" }
  else if isNumberField name then
    { field_type := "number", input_type := "int" }
  else if isBooleanField name then
    { field_type := "boolean", input_type := "bool" }
  else if isMultilineField name then
    { field_type := "multiline", input_type := "string" }
  else if isMediaField name then
    { field_type := "media", input_type := "string" }
  else if isUrlField name then
    { field_type := "text", input_type := "string" }
  else
    { field_type := "text", input_type := "string" }

/-- `FieldResolver.resolveParsedField`: re-resolves the field and its
direct children, passing `field.name` both as definition and as name. -/
def resolveParsedField (field : ParsedField) : ParsedField :=
  match field with
  | .mk n _ _ nested pf sr io ia =>
    let resolved := resolveFieldType n (some n)
    let nested2 := nested.map (List.map (fun child =>
      match child with
      | .mk cn _ _ cnf cpf csr cio cia =>
        let r := resolveFieldType cn (some cn)
        ParsedField.mk cn r.field_type r.input_type cnf cpf csr cio cia))
    ParsedField.mk n resolved.field_type resolved.input_type nested2 pf sr io ia

/-- `FieldResolver.isAmbiguous`. -/
def isAmbiguous (fieldDef : String) : Bool :=
  let defn := toLowerStr (trimStr fieldDef)
  if SchemaParser.isObject fieldDef || endsWithStr defn "[]" then
    false
  else
    let resolved := resolveFieldType fieldDef none
    if resolved.field_type = "text" then
      let hasNumberKeywords := isNumberField defn
      let hasDateKeywords := isDateField defn
      let hasBooleanKeywords := isBooleanField defn
      let matchCount :=
        ([hasNumberKeywords, hasDateKeywords, hasBooleanKeywords].filter
          (fun b => b)).length
      decide (matchCount > 1)
    else
      false

end FieldResolver

/-- `ValidationInput` of `src/types.ts`. -/
structure ValidationInput where
  required : Option Bool := none
  unique : Option Bool := none
  hide : Option Bool := none
  is_email : Option Bool := none
  is_url : Option Bool := none
  is_gallery : Option Bool := none
  is_multi_choice : Option Bool := none
  placeholder : Option String := none
  locals : Option (List String) := none
  fixed_list_elements : Option (List String) := none
  fixed_list_element_type : Option String := none
deriving DecidableEq, Repr

/-- One invocation of `ApitoGraphQLClient.upsertFieldToModel`: the five
positional arguments plus the options record. -/
structure UpsertFieldCall where
  model_name : String
  field_label : String
  field_type : String
  input_type : String
  field_sub_type : Option String := none
  parent_field : Option String := none
  is_object_field : Option Bool := none
  is_update : Option Bool := none
  serial : Option Nat := none
  field_description : Option String := none
  validation : Option ValidationInput := none
deriving DecidableEq, Repr

/-- The network calls a tool handler can issue through `ApitoGraphQLClient`. -/
inductive RemoteCall where
  | addModelToProject (name : String) (single_record : Option Bool)
  | upsertFieldToModel (call : UpsertFieldCall)
  | upsertConnectionToModel (from_model to_model forward_connection_type
      reverse_connection_type : String) (known_as : Option String)
  | updateModel (opType : String) (model_name : String)
  | modelFieldOperation (opType : String) (model_name field_name : String)
  | getProjectModelsInfo (model_name : Option String)
deriving DecidableEq, Repr

namespace ApitoMCPServer

/-- `ApitoMCPServer.validateModelName`. -/
def validateModelName (name : String) : Except ApitoErr Unit :=
  let reserved := ["list", "user", "system", "function"]
  let lowerName := toLowerStr name
  if reserved.contains lowerName then
    .error (.invalidModelName
      ("Model name \"" ++ name ++ "\" is reserved. Reserved names: list, user, system, function"))
  else if startsWithDigit name then
    .error (.invalidModelName "Model name cannot start with a number")
  else
    .ok ()

/-- `ApitoMCPServer.handleCreateModel`: result of the local validation
paired with the list of network calls issued. -/
def handleCreateModel (model_name : String) (single_record : Option Bool) :
    Except ApitoErr Unit × List RemoteCall :=
  match validateModelName model_name with
  | .error e => (.error e, [])
  | .ok _ => (.ok (), [.addModelToProject model_name single_record])

/-- Arguments of the `add_field` tool. -/
structure AddFieldArgs where
  model_name : String
  field_label : String
  field_type : String
  input_type : String
  field_sub_type : Option String := none
  parent_field : Option String := none
  is_object_field : Option Bool := none
  field_description : Option String := none
  validation : Option ValidationInput := none
  serial : Option Nat := none
deriving DecidableEq, Repr

/-- `!args.validation?.fixed_list_elements || !Array.isArray(...) ||
fixed_list_elements.length === 0`. -/
def fleMissing (v : Option ValidationInput) : Bool :=
  match v with
  | none => true
  | some vi =>
    match vi.fixed_list_elements with
    | none => true
    | some l => l.isEmpty

/-- `!args.validation.fixed_list_element_type` (JS falsiness: absent or ""). -/
def fletMissing (v : Option ValidationInput) : Bool :=
  match v with
  | none => true
  | some vi =>
    match vi.fixed_list_element_type with
    | none => true
    | some s => s == ""

/-- `ApitoMCPServer.handleAddField`: the validation gates followed by the
single `upsertFieldToModel` network call. -/
def handleAddField (args : AddFieldArgs) : Except ApitoErr UpsertFieldCall × List RemoteCall :=
  if args.field_type = "list" && !(jsTruthyOpt args.field_sub_type) then
    (.error (.missingFieldSubType
      "field_sub_type is required when field_type is \"list\""), [])
  else if (args.field_sub_type == some "dropdown" || args.field_sub_type == some "multiSelect")
      && fleMissing args.validation then
    (.error (.missingRequiredValidation
      "validation.fixed_list_elements (array of strings) is REQUIRED"), [])
  else if (args.field_sub_type == some "dropdown" || args.field_sub_type == some "multiSelect")
      && fletMissing args.validation then
    (.error (.missingRequiredValidation
      "validation.fixed_list_element_type is REQUIRED"), [])
  else
    let isObjectField :=
      match args.is_object_field with
      | some b => b
      | none => args.field_type = "object" || args.field_type = "repeated"
    let call : UpsertFieldCall :=
      { model_name := args.model_name
        field_label := args.field_label
        field_type := args.field_type
        input_type := args.input_type
        field_sub_type := args.field_sub_type
        parent_field := args.parent_field
        is_object_field := some isObjectField
        field_description := args.field_description
        validation := args.validation
        serial := args.serial }
    (.ok call, [.upsertFieldToModel call])

/-- Arguments of the `update_field` tool. -/
structure UpdateFieldArgs where
  model_name : String
  field_name : String
  field_label : String
  field_type : Option String := none
  input_type : Option String := none
  field_description : Option String := none
  validation : Option ValidationInput := none
deriving DecidableEq, Repr

/-- The `upsertFieldToModel` call built by `handleUpdateField`:
`args.field_type || 'text'`, `args.input_type || 'string'`, `isUpdate: true`. -/
def updateCallOf (args : UpdateFieldArgs) : UpsertFieldCall :=
  { model_name := args.model_name
    field_label := args.field_label
    field_type := jsOrStr args.field_type "text"
    input_type := jsOrStr args.input_type "string"
    is_update := some true
    field_description := args.field_description
    validation := args.validation }

/-- `ApitoMCPServer.handleUpdateField`. -/
def handleUpdateField (args : UpdateFieldArgs) :
    Except ApitoErr UpsertFieldCall × List RemoteCall :=
  (.ok (updateCallOf args), [.upsertFieldToModel (updateCallOf args)])

/-- Arguments of the `add_relation` tool. -/
structure AddRelationArgs where
  from_model : String
  to_model : String
  forward_connection_type : String
  reverse_connection_type : String
  known_as : Option String := none
deriving DecidableEq, Repr

/-- `ApitoMCPServer.handleAddRelation`: forwards to the connection
mutation.  (Defined in the source but unreachable from the dispatcher.) -/
def handleAddRelation (args : AddRelationArgs) : Except ApitoErr Unit × List RemoteCall :=
  (.ok (), [.upsertConnectionToModel args.from_model args.to_model
    args.forward_connection_type args.reverse_connection_type args.known_as])

/-- The handlers reachable from the `callToolHandler` switch. -/
inductive ToolHandler where
  | createModel | addField | updateField | renameField
  | deleteField | deleteModel | listModels | getModelSchema
deriving DecidableEq, Repr

/-- The tool names declared by the `tools/list` handler, in order. -/
def listedToolNames : List String :=
  ["create_model", "add_field", "update_field", "rename_field",
   "delete_field", "delete_model", "list_models", "get_model_schema",
   "add_relation"]

/-- The `switch (name)` of `callToolHandler`: which handler a tool call is
routed to; the `default` case throws `Unknown tool`. -/
def dispatchTool (name : String) : Except ApitoErr ToolHandler :=
  if name = "create_model" then .ok .createModel
  else if name = "add_field" then .ok .addField
  else if name = "update_field" then .ok .updateField
  else if name = "rename_field" then .ok .renameField
  else if name = "delete_field" then .ok .deleteField
  else if name = "delete_model" then .ok .deleteModel
  else if name = "list_models" then .ok .listModels
  else if name = "get_model_schema" then .ok .getModelSchema
  else .error (.unknownTool name)

end ApitoMCPServer

/-- The seven canonical operation names derived from a model name. -/
structure OperationNames where
  get : String
  list : String
  count : String
  create : String
  update : String
  delete : String
  upsert : String
deriving DecidableEq, Repr

def lowerFirst (s : String) : String :=
  match s.data with
  | [] => ""
  | c :: t => ⟨lowerChar c :: t⟩

def upperFirst (s : String) : String :=
  match s.data with
  | [] => ""
  | c :: t => ⟨upperChar c :: t⟩

/-- Modelled from the spec: the Naming-Convention Deriver (spec §4.3 and the
repository's Naming Rules document) has no implementation under src; this
definition follows the documented rules: singular camelCase, then
List / ListCount suffixes and create / update / delete / upsert prefixes. -/
def deriveOperationNames (modelName : String) : OperationNames :=
  let singular := lowerFirst modelName
  { get := singular
    list := singular ++ "List"
    count := singular ++ "ListCount"
    create := "create" ++ upperFirst singular
    update := "update" ++ upperFirst singular
    delete := "delete" ++ upperFirst singular
    upsert := "upsert" ++ upperFirst singular ++ "List" }

/-- Does an `Except` result hold a `malformedDefinition` error? -/
def isMalformedErr {α : Type} : Except ApitoErr α → Bool
  | .error (.malformedDefinition _) => true
  | _ => false

/-- Does an `Except` result hold an `invalidModelName` error? -/
def isInvalidModelNameErr {α : Type} : Except ApitoErr α → Bool
  | .error (.invalidModelName _) => true
  | _ => false

/-- Does an `Except` result hold a `missingRequiredValidation` error? -/
def isMissingValidationErr {α : Type} : Except ApitoErr α → Bool
  | .error (.missingRequiredValidation _) => true
  | _ => false

/-- Is an `Except` result a success? -/
def isOkE {ε α : Type} : Except ε α → Bool
  | .ok _ => true
  | .error _ => false

/-- The container half of the spec's ParsedField invariant: non-empty
`nested_fields` forces field_type object or repeated. -/
def containerTagOK (f : ParsedField) : Bool :=
  match f.nested_fields with
  | some (_ :: _) => f.field_type == "object" || f.field_type == "repeated"
  | _ => true

/-- The invariant on a parsed field and all its direct children (the parser
produces trees of depth at most one). -/
def fieldTreeInvariant (f : ParsedField) : Bool :=
  containerTagOK f && (f.nested_fields.getD []).all containerTagOK

/-- No array/object syntax and no keyword rule of `resolveFieldType`
matches the (trimmed, lower-cased) input. -/
def noHeuristicMatch (s : String) : Bool :=
  let defn := trimStr s
  let name := toLowerStr defn
  !(SchemaParser.isArray defn) && !(SchemaParser.isObject defn) &&
  !(endsWithStr defn "[]") && !(SchemaParser.mightBeArray defn) &&
  !(FieldResolver.isDateField name) && !(FieldResolver.isNumberField name) &&
  !(FieldResolver.isBooleanField name) && !(FieldResolver.isMultilineField name) &&
  !(FieldResolver.isMediaField name) && !(FieldResolver.isUrlField name)

/-- When `resolveFieldType` (called without an explicit name, as
`isAmbiguous` calls it) lands on the text type, every one of the date,
number and boolean keyword checks on the lower-cased trimmed input was
false: the first-match-wins chain already consumed any keyword hit. -/
theorem resolveFieldType_text_no_keywords (s : String)
    (h : (FieldResolver.resolveFieldType s none).field_type = "text") :
    FieldResolver.isDateField (toLowerStr (trimStr s)) = false ∧
    FieldResolver.isNumberField (toLowerStr (trimStr s)) = false ∧
    FieldResolver.isBooleanField (toLowerStr (trimStr s)) = false := by
  unfold FieldResolver.resolveFieldType at h
  simp only [jsOrStr] at h
  split_ifs at h with h1 h2 h3 h4 h5 h6 h7 h8 h9 <;>
    simp_all

/-- The multiple-keyword ambiguity branch of `isAmbiguous` is
unsatisfiable: the function is constantly false. -/
theorem isAmbiguous_always_false (s : String) :
    FieldResolver.isAmbiguous s = false := by
  simp only [FieldResolver.isAmbiguous]
  split_ifs with h1 h2
  · rfl
  · obtain ⟨hd, hn, hb⟩ := resolveFieldType_text_no_keywords s h2
    simp [hd, hn, hb]
  · rfl

/-- C1: the claim says a name like "count_date_is_active", which matches at
least two of the numeric / date / boolean keyword sets, is flagged ambiguous
while resolution still returns the default text type.  In the code the name
matches all three keyword sets, yet `resolveFieldType` returns the date type
(first match wins), so `isAmbiguous` takes its non-text branch and returns
false; in fact the multiple-keyword branch of `isAmbiguous` is unsatisfiable
and `isAmbiguous` is constantly false. -/
theorem C1_ambiguity_check_never_fires :
    FieldResolver.isNumberField "count_date_is_active" = true ∧
    FieldResolver.isDateField "count_date_is_active" = true ∧
    FieldResolver.isBooleanField "count_date_is_active" = true ∧
    (FieldResolver.resolveFieldType "count_date_is_active" none).field_type = "date" ∧
    FieldResolver.isAmbiguous "count_date_is_active" = false ∧
    ∀ s : String, FieldResolver.isAmbiguous s = false :=
  ⟨by decide, by decide, by decide, by decide, by decide, isAmbiguous_always_false⟩

/-- C2: the claim says parsing a definition and then applying
`resolveParsedField` preserves the invariant that non-empty `nested_fields`
forces field_type object/repeated.  The parse of
"medicine { unit name instruction }" satisfies the invariant (object, three
children), but `resolveParsedField` re-resolves from the bare name
"medicine", overwriting field_type with the default "text" while the three
nested fields remain, so the resolved field violates the invariant. -/
theorem C2_resolveParsedField_breaks_invariant :
    ((SchemaParser.parseField "medicine \x7b unit name instruction \x7d" none).toOption.map
      (fun f => (f.field_type, (f.nested_fields.getD []).length, fieldTreeInvariant f)))
      = some ("object", 3, true) ∧
    (((SchemaParser.parseField "medicine \x7b unit name instruction \x7d" none).map
      FieldResolver.resolveParsedField).toOption.map
      (fun f => (f.field_type, (f.nested_fields.getD []).length, fieldTreeInvariant f)))
      = some ("text", 3, false) :=
  ⟨by decide, by decide⟩

/-- C3 counterexample: "foo [bar" contains an opening bracket with no
closing counterpart, yet `parseField` does not fail: it returns a simple
scalar field whose name is the whole string. -/
theorem C3_cex_unmatched_bracket_is_scalar :
    (SchemaParser.parseField "foo [bar" none).toOption.map ParsedField.name
      = some "foo [bar" ∧
    isMalformedErr (SchemaParser.parseField "foo [bar" none) = false :=
  ⟨by decide, by decide⟩

/-- C3 amended: `parseField` fails with `MalformedDefinition` exactly when
(iff) a container branch is entered — the trimmed definition contains the
bracket pair, or the brace pair with no bracket pair — and the anchored
container pattern `name [ children ]` / `name { children }` does not match,
which covers container definitions with no field-name prefix; every failure
is such a `MalformedDefinition`, a matching container pattern always parses
successfully, and when neither pair is complete (e.g. an opening bracket
with no closing counterpart) the definition is returned as a simple
text/string field whose name is the whole trimmed string. -/
theorem C3_amended_container_errors (d : String) :
    (isMalformedErr (SchemaParser.parseField d none) = true ↔
      (((includesStr (trimStr d) "[" && includesStr (trimStr d) "]") = true ∧
        matchContainer '[' ']' (trimStr d) = none) ∨
       ((includesStr (trimStr d) "[" && includesStr (trimStr d) "]") = false ∧
        (includesStr (trimStr d) "\x7b" && includesStr (trimStr d) "\x7d") = true ∧
        matchContainer '\x7b' '\x7d' (trimStr d) = none))) ∧
    (isOkE (SchemaParser.parseField d none)
      = !(isMalformedErr (SchemaParser.parseField d none))) ∧
    ((includesStr (trimStr d) "[" && includesStr (trimStr d) "]") = false →
      (includesStr (trimStr d) "\x7b" && includesStr (trimStr d) "\x7d") = false →
      SchemaParser.parseField d none =
        .ok (ParsedField.mk (trimStr d) "text" "string" none none none none none)) := by
  cases hbr : includesStr (trimStr d) "[" && includesStr (trimStr d) "]" with
  | true =>
    cases hm : matchContainer '[' ']' (trimStr d) with
    | none =>
      simp [SchemaParser.parseField, SchemaParser.parseArrayField, hbr, hm,
        isMalformedErr, isOkE]
    | some p =>
      cases p with
      | mk nm content =>
        simp [SchemaParser.parseField, SchemaParser.parseArrayField, hbr, hm,
          isMalformedErr, isOkE]
  | false =>
    cases hbc : includesStr (trimStr d) "\x7b" && includesStr (trimStr d) "\x7d" with
    | true =>
      cases hm : matchContainer '\x7b' '\x7d' (trimStr d) with
      | none =>
        simp [SchemaParser.parseField, SchemaParser.parseObjectField, hbr, hbc, hm,
          isMalformedErr, isOkE]
      | some p =>
        cases p with
        | mk nm content =>
          simp [SchemaParser.parseField, SchemaParser.parseObjectField, hbr, hbc, hm,
            isMalformedErr, isOkE]
    | false =>
      simp [SchemaParser.parseField, hbr, hbc, isMalformedErr, isOkE]

/-- C3 amended, witnessed at the container definition "[a b]" (no
field-name prefix), which fails with `MalformedDefinition`, and at the
scalar definition "date" (no complete pair), which parses as a text/string
field named by the whole string. -/
theorem C3_amended_witness :
    isMalformedErr (SchemaParser.parseField "[a b]" none) = true ∧
    SchemaParser.parseField "date" none =
      .ok (ParsedField.mk "date" "text" "string" none none none none none) :=
  ⟨(C3_amended_container_errors "[a b]").1.mpr (Or.inl ⟨by decide, by decide⟩),
   (C3_amended_container_errors "date").2.2 (by decide) (by decide)⟩

/-- C4 counterexample: "a {b} [c]" contains both a bracket form and a brace
form, but `parseField` does not return an array-tagged ParsedField: the
array branch is taken and its pattern fails, so the parse is a
`MalformedDefinition` error. -/
theorem C4_cex_mixed_forms_error :
    isMalformedErr (SchemaParser.parseField "a \x7bb\x7d [c]" none) = true ∧
    isOkE (SchemaParser.parseField "a \x7bb\x7d [c]" none) = false :=
  ⟨by decide, by decide⟩

/-- C4 amended: for a definition containing a bracket pair (in particular
any definition containing both a bracket pair and a brace pair), the array
check precedes the object check, so the object parser is never reached:
every successful parse is array-tagged (field_type "repeated", is_array
true) — never an object field — and whenever the array pattern
`name [ children ]` does not match the whole definition the parse fails
with `MalformedDefinition` instead of returning a field, while a matching
pattern always parses successfully. -/
theorem C4_amended_array_precedence (d : String)
    (hb : (includesStr (trimStr d) "[" && includesStr (trimStr d) "]") = true) :
    ((SchemaParser.parseField d none).toOption.all
      (fun f => f.field_type == "repeated" && f.is_array == some true)) = true ∧
    (matchContainer '[' ']' (trimStr d) = none →
      isMalformedErr (SchemaParser.parseField d none) = true) ∧
    (matchContainer '[' ']' (trimStr d) ≠ none →
      isOkE (SchemaParser.parseField d none) = true) := by
  rw [SchemaParser.parseField]
  simp only [hb, if_true]
  rw [SchemaParser.parseArrayField]
  cases hm : matchContainer '[' ']' (trimStr d) with
  | none => simp [isMalformedErr, isOkE, Except.toOption, Option.all]
  | some p =>
    cases p with
    | mk nm content =>
      simp [ParsedField.field_type, ParsedField.is_array, isOkE, isMalformedErr,
        Except.toOption, Option.all]

/-- C4 amended, witnessed at "foo [ {a} b ]" (braces inside the bracket
pair), where the parse succeeds array-tagged, and at "q [a] b {c}" (brace
form outside the brackets), where the array pattern fails to match and the
parse is a `MalformedDefinition` error. -/
theorem C4_amended_witness :
    ((SchemaParser.parseField "foo [ \x7ba\x7d b ]" none).toOption.all
      (fun f => f.field_type == "repeated" && f.is_array == some true)) = true ∧
    isMalformedErr (SchemaParser.parseField "q [a] b \x7bc\x7d" none) = true :=
  ⟨(C4_amended_array_precedence "foo [ \x7ba\x7d b ]" (by decide)).1,
   (C4_amended_array_precedence "q [a] b \x7bc\x7d" (by decide)).2.1 (by decide)⟩

/-- C5: the tools list declares add_relation and `handleAddRelation` (which
issues the connection mutation) is defined, but the `callToolHandler`
switch has no add_relation case: dispatch falls to the default branch and
the call is rejected as an unknown tool — add_relation is the only
declared tool whose dispatch fails. -/
theorem C5_add_relation_not_dispatched :
    ApitoMCPServer.listedToolNames.contains "add_relation" = true ∧
    ApitoMCPServer.dispatchTool "add_relation"
      = .error (.unknownTool "add_relation") ∧
    (ApitoMCPServer.listedToolNames.filter
      (fun n => !(isOkE (ApitoMCPServer.dispatchTool n)))) = ["add_relation"] ∧
    (ApitoMCPServer.handleAddRelation
      ⟨"patient", "dentalAssessment", "has_many", "has_one", none⟩).2
      = [.upsertConnectionToModel "patient" "dentalAssessment"
          "has_many" "has_one" none] :=
  ⟨by decide, rfl, by decide, rfl⟩

/-- C6: a model name that is reserved (case-insensitively) or starts with a
digit makes `handleCreateModel` fail with `InvalidModelName` and issue no
network call. -/
theorem C6_model_name_gate (name : String) (single : Option Bool)
    (h : (["list", "user", "system", "function"].contains (toLowerStr name)) = true
      ∨ startsWithDigit name = true) :
    (ApitoMCPServer.handleCreateModel name single).2 = [] ∧
    isInvalidModelNameErr (ApitoMCPServer.handleCreateModel name single).1 = true := by
  rw [ApitoMCPServer.handleCreateModel, ApitoMCPServer.validateModelName]
  split_ifs with h1 h2
  · simp [isInvalidModelNameErr]
  · simp [isInvalidModelNameErr]
  · exfalso
    rcases h with h | h
    · exact h1 (by simpa using h)
    · exact h2 h

/-- C6 witnessed at the reserved name "list" and the digit-leading name
"9abc": both fail with `InvalidModelName` and zero network calls. -/
theorem C6_witness :
    ((ApitoMCPServer.handleCreateModel "list" none).2 = [] ∧
      isInvalidModelNameErr (ApitoMCPServer.handleCreateModel "list" none).1 = true) ∧
    ((ApitoMCPServer.handleCreateModel "9abc" none).2 = [] ∧
      isInvalidModelNameErr (ApitoMCPServer.handleCreateModel "9abc" none).1 = true) :=
  ⟨C6_model_name_gate "list" none (Or.inl (by decide)),
   C6_model_name_gate "9abc" none (Or.inr (by decide))⟩

/-- C7: an add_field call with sub-type dropdown or multiSelect whose
validation lacks a non-empty fixed_list_elements array or lacks
fixed_list_element_type fails with `MissingRequiredValidation` and issues
zero remote calls. -/
theorem C7_choice_list_validation_gate (args : ApitoMCPServer.AddFieldArgs)
    (hsub : args.field_sub_type = some "dropdown"
      ∨ args.field_sub_type = some "multiSelect")
    (hval : ApitoMCPServer.fleMissing args.validation = true
      ∨ ApitoMCPServer.fletMissing args.validation = true) :
    (ApitoMCPServer.handleAddField args).2 = [] ∧
    isMissingValidationErr (ApitoMCPServer.handleAddField args).1 = true := by
  have hOr : (args.field_sub_type == some "dropdown"
      || args.field_sub_type == some "multiSelect") = true := by
    rcases hsub with h | h <;> simp [h]
  have hT : jsTruthyOpt args.field_sub_type = true := by
    rcases hsub with h | h <;> simp [h, jsTruthyOpt]
  rw [ApitoMCPServer.handleAddField]
  by_cases hfle : ApitoMCPServer.fleMissing args.validation = true
  · simp [hOr, hT, hfle, isMissingValidationErr]
  · have hflet : ApitoMCPServer.fletMissing args.validation = true := by
      rcases hval with h | h
      · exact absurd h hfle
      · exact h
    simp [hOr, hT, hfle, hflet, isMissingValidationErr]

/-- C7 witnessed at a dropdown field with no validation object at all: the
gate fires and no remote call is issued. -/
theorem C7_witness :
    (ApitoMCPServer.handleAddField
      ⟨"task", "status", "list", "string", some "dropdown",
        none, none, none, none, none⟩).2 = [] ∧
    isMissingValidationErr (ApitoMCPServer.handleAddField
      ⟨"task", "status", "list", "string", some "dropdown",
        none, none, none, none, none⟩).1 = true :=
  C7_choice_list_validation_gate _ (Or.inl rfl) (Or.inl rfl)

/-- C8: the type resolver is total with a text default: every input
produces a result whose field_type and input_type lie in the fixed output
ranges of the heuristic table, and when no array/object syntax and no
keyword rule matches, the result is the text/string default. -/
theorem C8_resolver_total_text_default :
    (∀ s fn, (FieldResolver.resolveFieldType s fn).field_type ∈
        ["repeated", "object", "date", "number", "boolean", "multiline", "media", "text"] ∧
      (FieldResolver.resolveFieldType s fn).input_type ∈
        ["repeated", "object", "string", "int", "bool"]) ∧
    (∀ s, noHeuristicMatch s = true →
      FieldResolver.resolveFieldType s none =
        { field_type := "text", input_type := "string" }) := by
  constructor
  · intro s fn
    rw [FieldResolver.resolveFieldType]
    split_ifs <;> simp
  · intro s h
    rw [noHeuristicMatch] at h
    simp only [Bool.and_eq_true, Bool.not_eq_true'] at h
    obtain ⟨⟨⟨⟨⟨⟨⟨⟨⟨h1, h2⟩, h3⟩, h4⟩, h5⟩, h6⟩, h7⟩, h8⟩, h9⟩, h10⟩ := h
    rw [FieldResolver.resolveFieldType]
    simp [jsOrStr, h1, h2, h3, h4, h5, h6, h7, h8, h9, h10]

/-- C8 witnessed at the empty string: it matches no rule and resolves to
the text/string default. -/
theorem C8_witness :
    FieldResolver.resolveFieldType "" none =
      { field_type := "text", input_type := "string" } :=
  C8_resolver_total_text_default.2 "" (by decide)

/-- C9: the naming-convention derivation (modelled from the spec, see
`deriveOperationNames`) maps "Task" to exactly the seven documented
operation names. -/
theorem C9_derive_task_names :
    deriveOperationNames "Task" =
      { get := "task", list := "taskList", count := "taskListCount",
        create := "createTask", update := "updateTask",
        delete := "deleteTask", upsert := "upsertTaskList" } := by
  decide

/-- C10: `handleUpdateField` always issues exactly one upsert-field call
with is_update true, substituting "text" when field_type is omitted and
"string" when input_type is omitted. -/
theorem C10_update_field_defaults (args : ApitoMCPServer.UpdateFieldArgs) :
    (ApitoMCPServer.handleUpdateField args).2 =
      [RemoteCall.upsertFieldToModel (ApitoMCPServer.updateCallOf args)] ∧
    (ApitoMCPServer.updateCallOf args).is_update = some true ∧
    (args.field_type = none →
      (ApitoMCPServer.updateCallOf args).field_type = "text") ∧
    (args.input_type = none →
      (ApitoMCPServer.updateCallOf args).input_type = "string") := by
  refine ⟨rfl, rfl, ?_, ?_⟩ <;>
    intro h <;> simp [ApitoMCPServer.updateCallOf, jsOrStr, h]

/-- C10 witnessed at an update_field call omitting both type arguments:
the issued call carries field_type "text", input_type "string". -/
theorem C10_witness :
    (ApitoMCPServer.updateCallOf
      ⟨"task", "title", "Title", none, none, none, none⟩).field_type = "text" ∧
    (ApitoMCPServer.updateCallOf
      ⟨"task", "title", "Title", none, none, none, none⟩).input_type = "string" ∧
    (ApitoMCPServer.handleUpdateField
      ⟨"task", "title", "Title", none, none, none, none⟩).2 =
      [RemoteCall.upsertFieldToModel (ApitoMCPServer.updateCallOf
        ⟨"task", "title", "Title", none, none, none, none⟩)] :=
  ⟨(C10_update_field_defaults _).2.2.1 rfl,
   (C10_update_field_defaults _).2.2.2 rfl,
   (C10_update_field_defaults _).1⟩
